import Mathlib

/-!
Verification of the TradingView → Hyperliquid webhook bot (`src/main.py`)
against its natural-language specification.

The single HTTP handler `tradingview_webhook` is shallowly embedded below.
Python floats are modelled as exact rationals (`ℚ`); Python's `round(x, n)`
(documented round-half-to-even at `n` decimal digits) is modelled by
`pyRound`.  The exchange collaborator is modelled as an oracle (`Exchange`)
holding the response each call site would receive; the handler is a pure
function from the payload, the configuration and that oracle to a response
together with the trace of collaborator calls it issued, in order.
-/

namespace HLBot

/-- Result of an exchange SDK call as inspected by the handler: `ok` stands
for any result that passes the `isinstance(r, dict) and r.get("status") != "ok"`
check (a falsy result, a non-dict, or a dict with status `"ok"`); `err`
stands for a dict whose status is not `"ok"`, or an exception raised by the
call (both lead to the same `{"status": "error"}` response). -/
inductive ApiResp where
  | ok
  | err
deriving DecidableEq, Repr

/-- One entry of `user_state["assetPositions"]`, projected to the fields the
handler reads: `position.coin`, `position.szi`, `position.entryPx`. -/
structure PosInfo where
  coin : String
  szi : ℚ
  entryPx : Option ℚ
deriving DecidableEq, Repr

/-- The part of the `user_state` response the handler reads. -/
structure UserState where
  assetPositions : List PosInfo
  accountValue : ℚ
deriving DecidableEq, Repr

/-- One entry of `meta["universe"]`: an asset `name` and its `szDecimals`
(`asset.get("szDecimals", 0)`). -/
structure MetaAsset where
  name : String
  szDecimals : ℕ
deriving DecidableEq, Repr

/-- Oracle for the exchange collaborator: the value each call site of the
handler would receive, in program order.  `user_state` is called up to three
times (before closing, after closing for sizing, and after opening), each
time possibly observing a different state.  `metaUniverse = none` models
`exchange.info.meta()` raising (the handler falls back to 3 decimals). -/
structure Exchange where
  userState1 : UserState
  closeResult : ApiResp
  leverageResult : ApiResp
  userState2 : UserState
  mids : List (String × ℚ)
  metaUniverse : Option (List MetaAsset)
  openResult : ApiResp
  userState3 : UserState
deriving DecidableEq, Repr

/-- The webhook payload, projected to the fields the handler reads.
`leverage`/`risk_pct` model the JSON field together with the outcome of
`int(...)`/`float(...)`: `none` = field absent, `some none` = present but the
conversion raises, `some (some v)` = present and converts to `v`.  `coin` is
carried because the spec says the traded instrument comes from it. -/
structure Payload where
  action : Option String
  signal : Option String
  coin : Option String
  leverage : Option (Option ℤ)
  risk_pct : Option (Option ℚ)
deriving DecidableEq, Repr

/-- Configuration derived from the environment: `default_leverage_val` from
`DEFAULT_LEVERAGE`, `default_risk_pct` from `MAX_RISK_PCT`. -/
structure Config where
  default_leverage_val : ℤ
  default_risk_pct : ℚ
deriving DecidableEq, Repr

/-- A collaborator call issued by the handler, with the arguments it passed. -/
inductive Call where
  | userState
  | marketClose (coin : String)
  | updateLeverage (leverage : ℤ) (coin : String)
  | allMids
  | meta
  | marketOpen (coin : String) (isBuy : Bool) (size : ℚ)
deriving DecidableEq, Repr

/-- The handler's response: `httpError` for a raised `HTTPException`
(carrying its status code and `detail`); `jsonError` for
`JSONResponse(content={"status": "error"})`, whose HTTP status is the
FastAPI default 200 and whose body has no `detail` field; `success` for the
`{"action", "size", "price", "account_value", "status": "success"}` body. -/
inductive Response where
  | httpError (code : ℕ) (detail : String)
  | jsonError
  | success (action : String) (size : ℚ) (price : Option ℚ) (accountValue : ℚ)
deriving DecidableEq, Repr

/-- HTTP status of a response. `JSONResponse` without an explicit
`status_code` is sent with status 200. -/
def Response.httpStatus : Response → ℕ
  | .httpError c _ => c
  | .jsonError => 200
  | .success _ _ _ _ => 200

/-- Whether the response body carries a `detail` field (only the raised
`HTTPException` does). -/
def Response.hasDetail : Response → Bool
  | .httpError _ _ => true
  | _ => false

/-- Whether the response reports success (the `"status": "success"` body). -/
def Response.isSuccess : Response → Bool
  | .success _ _ _ _ => true
  | _ => false

/-- Python `a or b` on optional strings: the empty string is falsy. -/
def pyOr (a b : Option String) : Option String :=
  match a with
  | some s => if s = "" then b else some s
  | none => b

/-- Python truthiness test `not action` on the result of `pyOr`. -/
def falsy : Option String → Bool
  | none => true
  | some s => s = ""

/-- Round-half-to-even of a rational to an integer (the tie-breaking rule of
Python's `round`). -/
def roundHalfEven (q : ℚ) : ℤ :=
  let n := ⌊q⌋
  let f := q - n
  if f < 1/2 then n
  else if 1/2 < f then n + 1
  else if 2 ∣ n then n else n + 1

/-- Python's `round(x, d)` for `d ≥ 0` digits, on exact rationals:
round-half-to-even at the `d`-th decimal place. -/
def pyRound (q : ℚ) (d : ℕ) : ℚ :=
  (roundHalfEven (q * 10 ^ d) : ℚ) / 10 ^ d

/-- Position classification (lines 91–98): `abs(szi) < 1e-9` → FLAT,
`szi > 0` → LONG, `szi < 0` → SHORT.  Python's `current_position = None`
(no BTC entry found) is modelled by `Option PosState`'s `none`. -/
inductive PosState where
  | flat
  | long
  | short
deriving DecidableEq, Repr

def classify (szi : ℚ) : PosState :=
  if |szi| < 1/1000000000 then .flat
  else if szi > 0 then .long
  else .short

/-- Effective leverage (lines 62–68): the configured default, overridden by
the payload's `leverage` field when present and `int(...)` succeeds; a
conversion failure is logged and keeps the default. -/
def effLeverage (cfg : Config) (p : Payload) : ℤ :=
  match p.leverage with
  | some (some k) => k
  | some none => cfg.default_leverage_val
  | none => cfg.default_leverage_val

/-- Effective risk percentage (lines 63–79): the configured default,
overridden by the payload's `risk_pct` when present and `float(...)`
succeeds, then clamped into [0, 100]. -/
def effRiskPct (cfg : Config) (p : Payload) : ℚ :=
  let r :=
    match p.risk_pct with
    | some (some x) => x
    | some none => cfg.default_risk_pct
    | none => cfg.default_risk_pct
  let r1 := if r > 100 then 100 else r
  if r1 < 0 then 0 else r1

/-- `sz_decimals` extraction from `meta["universe"]` (lines 156–160): 0 when
no asset named `"BTC"` is found. -/
def szDecOf (univ : List MetaAsset) : ℕ :=
  ((univ.find? (fun a => a.name = "BTC")).map (fun a => a.szDecimals)).getD 0

/-- The first `"BTC"` entry of `assetPositions` (loop of lines 87–99). -/
def findBTC (ps : List PosInfo) : Option PosInfo :=
  ps.find? (fun pos => pos.coin = "BTC")

/-- `float(price_info.get("BTC", 0))` of line 146: the BTC mid price served
by the oracle, defaulting to 0 when absent. -/
def btcPriceOf (e : Exchange) : ℚ :=
  (e.mids.lookup "BTC").getD 0

/-- Lines 142–164: the order quantity: `risk_amount = account_value *
risk_pct/100`, `position_value = risk_amount * leverage`, raw size
`position_value / btc_price`, then Python `round` to the instrument's
`szDecimals` (3 as fallback when the meta fetch raises). -/
def sizeComputed (e : Exchange) (risk_pct : ℚ) (leverage_val : ℤ) : ℚ :=
  let account_value := e.userState2.accountValue
  let risk_fraction := risk_pct / 100
  let risk_amount := account_value * risk_fraction
  let position_value := risk_amount * (leverage_val : ℚ)
  let size0 := position_value / btcPriceOf e
  match e.metaUniverse with
  | some univ => pyRound size0 (szDecOf univ)
  | none => pyRound size0 3

/-- Loop of lines 181–188: the first BTC entry of the final state that has
an `entryPx`. -/
def finalPosOf (fs : UserState) : Option PosInfo :=
  fs.assetPositions.find? (fun pos => pos.coin = "BTC" && pos.entryPx.isSome)

/-- `final_size` of lines 181–188: `abs(szi)` of that entry, 0 otherwise. -/
def finalSizeOf (fs : UserState) : ℚ :=
  ((finalPosOf fs).map (fun pos => |pos.szi|)).getD 0

/-- `final_price` of lines 181–188: `entryPx` of that entry, `None` otherwise. -/
def finalPriceOf (fs : UserState) : Option ℚ :=
  ((finalPosOf fs).map (fun pos => pos.entryPx)).getD none

/-- Lines 127–196: leverage update, sizing against the refreshed account
value and the BTC mid price, Python rounding to `szDecimals`, the market
open, and the final-state read for the success body.  `t` is the trace
accumulated so far. -/
def openPhase (action : String) (leverage_val : ℤ) (risk_pct : ℚ)
    (e : Exchange) (t : List Call) : Response × List Call :=
  let t := t ++ [Call.updateLeverage leverage_val "BTC"]
  if e.leverageResult = .err then (.jsonError, t)
  else
    let t := t ++ [Call.userState]
    let t := t ++ [Call.allMids]
    let btc_price := btcPriceOf e
    if btc_price ≤ 0 then (.jsonError, t)
    else
      let t := t ++ [Call.meta]
      let size_btc := sizeComputed e risk_pct leverage_val
      if size_btc ≤ 0 then (.jsonError, t)
      else
        let is_buy := action = "BUY"
        let t := t ++ [Call.marketOpen "BTC" is_buy size_btc]
        if e.openResult = .err then (.jsonError, t)
        else
          let t := t ++ [Call.userState]
          (.success (if is_buy then "BUY" else "SELL") (finalSizeOf e.userState3)
            (finalPriceOf e.userState3) e.userState3.accountValue, t)

/-- Lines 119–125 then 127–196: the no-op branches (already in the desired
direction) and otherwise the open phase. -/
def noopOrOpen (action : String) (current_position : Option PosState)
    (current_size : ℚ) (av1 : ℚ) (leverage_val : ℤ) (risk_pct : ℚ)
    (e : Exchange) (t : List Call) : Response × List Call :=
  if action = "BUY" ∧ current_position = some .long then
    (.success "BUY" |current_size| none av1, t)
  else if action = "SELL" ∧ current_position = some .short then
    (.success "SELL" |current_size| none av1, t)
  else openPhase action leverage_val risk_pct e t

/-- Python `str.upper()` on the ASCII range (alert actions are ASCII),
mapped characterwise so it evaluates structurally. -/
def pyUpper (s : String) : String :=
  ⟨s.data.map Char.toUpper⟩

/-- `action.upper()` after the `payload.get("action") or payload.get("signal")`
fallback (lines 55–60), as read in the non-rejected branches. -/
def actionOf (p : Payload) : String :=
  pyUpper ((pyOr p.action p.signal).getD "")

/-- `current_position` of lines 85–99: classification of the first BTC entry
of `assetPositions`, `none` when no BTC entry exists (Python `None`). -/
def cpOf (e : Exchange) : Option PosState :=
  (findBTC e.userState1.assetPositions).map (fun pos => classify pos.szi)

/-- `current_size` of lines 86–92: the `szi` of the first BTC entry, 0 when
no BTC entry exists. -/
def csizeOf (e : Exchange) : ℚ :=
  ((findBTC e.userState1.assetPositions).map (fun pos => pos.szi)).getD 0

/-- The `tradingview_webhook` handler (lines 50–201) as a pure function of
payload, configuration and exchange oracle, returning the response together
with the ordered trace of collaborator calls. -/
def webhook (cfg : Config) (p : Payload) (e : Exchange) : Response × List Call :=
  if falsy (pyOr p.action p.signal) then
    (.httpError 400 "No action specified in alert", [])
  else
    let action := actionOf p
    let leverage_val := effLeverage cfg p
    let risk_pct := effRiskPct cfg p
    let t := [Call.userState]
    let current_size := csizeOf e
    let current_position := cpOf e
    if action = "BUY" ∧ current_position = some .short then
      let t := t ++ [Call.marketClose "BTC"]
      if e.closeResult = .err then (.jsonError, t)
      else noopOrOpen action current_position current_size e.userState1.accountValue
        leverage_val risk_pct e t
    else if action = "SELL" ∧ current_position = some .long then
      let t := t ++ [Call.marketClose "BTC"]
      if e.closeResult = .err then (.jsonError, t)
      else noopOrOpen action current_position current_size e.userState1.accountValue
        leverage_val risk_pct e t
    else noopOrOpen action current_position current_size e.userState1.accountValue
      leverage_val risk_pct e t

/-- The instrument argument a call carries, when it carries one. -/
def Call.instrument : Call → Option String
  | .marketClose c => some c
  | .updateLeverage _ c => some c
  | .marketOpen c _ _ => some c
  | _ => none

def Call.isClose : Call → Bool
  | .marketClose _ => true
  | _ => false

def Call.isLeverage : Call → Bool
  | .updateLeverage _ _ => true
  | _ => false

def Call.isOpen : Call → Bool
  | .marketOpen _ _ _ => true
  | _ => false

def Call.isAllMids : Call → Bool
  | .allMids => true
  | _ => false

def Call.isMeta : Call → Bool
  | .meta => true
  | _ => false

/-- The canonical complete call sequence of a fully successful request:
`user_state`, the optional close, `update_leverage`, `user_state`,
`all_mids`, `meta`, `market_open`, `user_state`.  Every trace the handler
can produce is a prefix of this sequence for some choice of the
parameters. -/
def fullTrace (wc : Bool) (lv : ℤ) (b : Bool) (s : ℚ) : List Call :=
  Call.userState ::
    ((if wc then [Call.marketClose "BTC"] else []) ++
      [Call.updateLeverage lv "BTC", Call.userState, Call.allMids, Call.meta,
        Call.marketOpen "BTC" b s, Call.userState])

/-- The tail of `fullTrace` after the optional close: the calls of the open
phase. -/
def openTail (lv : ℤ) (A : String) (e : Exchange) (rp : ℚ) : List Call :=
  [Call.updateLeverage lv "BTC", Call.userState, Call.allMids, Call.meta,
    Call.marketOpen "BTC" (decide (A = "BUY")) (sizeComputed e rp lv), Call.userState]

/-! Concrete fixtures used by witnesses and counterexamples: a configuration
with `DEFAULT_LEVERAGE=5`, `MAX_RISK_PCT=2`, and exchange oracles for a flat
account, a short position, a failing close, a missing price, and a
low-balance account. -/

def sampleConfig : Config := ⟨5, 2⟩

def flatUS : UserState := ⟨[⟨"BTC", 0, none⟩], 10000⟩

def shortUS : UserState := ⟨[⟨"BTC", -1/100, none⟩], 10000⟩

def doneUS : UserState := ⟨[⟨"BTC", 1/50, some 50000⟩], 9990⟩

def okExchange : Exchange :=
  ⟨flatUS, .ok, .ok, flatUS, [("BTC", 50000)], some [⟨"BTC", 3⟩], .ok, doneUS⟩

def shortExchange : Exchange :=
  ⟨shortUS, .ok, .ok, flatUS, [("BTC", 50000)], some [⟨"BTC", 3⟩], .ok, doneUS⟩

def closeErrExchange : Exchange :=
  ⟨shortUS, .err, .ok, flatUS, [("BTC", 50000)], some [⟨"BTC", 3⟩], .ok, doneUS⟩

def noPriceExchange : Exchange :=
  ⟨flatUS, .ok, .ok, flatUS, [], some [⟨"BTC", 3⟩], .ok, doneUS⟩

def lowBalanceUS : UserState := ⟨[], 5⟩

def lowBalanceExchange : Exchange :=
  ⟨lowBalanceUS, .ok, .ok, lowBalanceUS, [("BTC", 10)], some [⟨"BTC", 3⟩], .ok, doneUS⟩

def rawQuantityUS : UserState := ⟨[], 199⟩

/-- Oracle making the raw quantity come out at exactly 0.0199 with
`szDecimals = 3` (balance 199, risk 100 %, leverage 1, price 10000). -/
def rawQuantityExchange : Exchange :=
  ⟨rawQuantityUS, .ok, .ok, rawQuantityUS, [("BTC", 10000)], some [⟨"BTC", 3⟩], .ok, doneUS⟩

def pBuy : Payload := ⟨some "BUY", none, none, none, none⟩

def pHold : Payload := ⟨some "HOLD", none, none, none, none⟩

def pBuyEth : Payload := ⟨some "buy", none, some "ETH", none, none⟩

def pRisk50 : Payload := ⟨some "BUY", none, none, none, some (some 50)⟩

def pLev0 : Payload := ⟨some "BUY", none, none, some (some 0), none⟩

def pSignalOnly : Payload := ⟨none, some "SELL", none, none, none⟩

def pSignalAsAction : Payload := ⟨some "SELL", some "SELL", none, none, none⟩

/-- Payload requesting leverage 1 and risk 100 % (used to hit exact raw
quantities through the sizing arithmetic). -/
def pRawQuantity : Payload := ⟨some "BUY", none, none, some (some 1), some (some 100)⟩

section StepLemmas

variable (cfg : Config) (p : Payload) (e : Exchange) (A : String) (lv : ℤ)
  (rp cs av : ℚ) (cp : Option PosState) (t : List Call)

lemma openPhase_levErr (h : e.leverageResult = .err) :
    openPhase A lv rp e t = (.jsonError, t ++ [Call.updateLeverage lv "BTC"]) := by
  simp [openPhase, h]

lemma openPhase_priceErr (h1 : e.leverageResult ≠ .err) (h2 : btcPriceOf e ≤ 0) :
    openPhase A lv rp e t =
      (.jsonError, t ++ [Call.updateLeverage lv "BTC", Call.userState, Call.allMids]) := by
  simp [openPhase, h1, h2]

lemma openPhase_sizeErr (h1 : e.leverageResult ≠ .err) (h2 : ¬ btcPriceOf e ≤ 0)
    (h3 : sizeComputed e rp lv ≤ 0) :
    openPhase A lv rp e t =
      (.jsonError, t ++ [Call.updateLeverage lv "BTC", Call.userState, Call.allMids,
        Call.meta]) := by
  simp [openPhase, h1, h2, h3]

lemma openPhase_openErr (h1 : e.leverageResult ≠ .err) (h2 : ¬ btcPriceOf e ≤ 0)
    (h3 : ¬ sizeComputed e rp lv ≤ 0) (h4 : e.openResult = .err) :
    openPhase A lv rp e t =
      (.jsonError, t ++ [Call.updateLeverage lv "BTC", Call.userState, Call.allMids,
        Call.meta, Call.marketOpen "BTC" (decide (A = "BUY")) (sizeComputed e rp lv)]) := by
  simp [openPhase, h1, h2, h3, h4]

lemma openPhase_ok (h1 : e.leverageResult ≠ .err) (h2 : ¬ btcPriceOf e ≤ 0)
    (h3 : ¬ sizeComputed e rp lv ≤ 0) (h4 : e.openResult ≠ .err) :
    openPhase A lv rp e t =
      (.success (if A = "BUY" then "BUY" else "SELL") (finalSizeOf e.userState3)
        (finalPriceOf e.userState3) e.userState3.accountValue,
       t ++ [Call.updateLeverage lv "BTC", Call.userState, Call.allMids,
        Call.meta, Call.marketOpen "BTC" (decide (A = "BUY")) (sizeComputed e rp lv),
        Call.userState]) := by
  simp [openPhase, h1, h2, h3, h4]

lemma noopOrOpen_buyLong (h : A = "BUY" ∧ cp = some .long) :
    noopOrOpen A cp cs av lv rp e t = (.success "BUY" |cs| none av, t) := by
  simp [noopOrOpen, h.1, h.2]

lemma noopOrOpen_sellShort (h : A = "SELL" ∧ cp = some .short) :
    noopOrOpen A cp cs av lv rp e t = (.success "SELL" |cs| none av, t) := by
  have : ¬ (A = "BUY" ∧ cp = some .long) := by
    rintro ⟨rfl, -⟩; exact absurd h.1 (by decide)
  simp [noopOrOpen, this, h.1, h.2]

lemma noopOrOpen_other (h1 : ¬ (A = "BUY" ∧ cp = some .long))
    (h2 : ¬ (A = "SELL" ∧ cp = some .short)) :
    noopOrOpen A cp cs av lv rp e t = openPhase A lv rp e t := by
  simp only [noopOrOpen, if_neg h1, if_neg h2]

lemma webhook_400 (h : falsy (pyOr p.action p.signal) = true) :
    webhook cfg p e = (.httpError 400 "No action specified in alert", []) := by
  simp only [webhook, h, if_true]

lemma webhook_closeBuy (h0 : falsy (pyOr p.action p.signal) = false)
    (h : actionOf p = "BUY" ∧ cpOf e = some .short) :
    webhook cfg p e =
      if e.closeResult = .err then (.jsonError, [Call.userState, Call.marketClose "BTC"])
      else noopOrOpen (actionOf p) (cpOf e) (csizeOf e) e.userState1.accountValue
        (effLeverage cfg p) (effRiskPct cfg p) e [Call.userState, Call.marketClose "BTC"] := by
  simp only [webhook, h0, Bool.false_eq_true, if_false, if_pos h, List.cons_append,
    List.nil_append]

lemma webhook_closeSell (h0 : falsy (pyOr p.action p.signal) = false)
    (h : actionOf p = "SELL" ∧ cpOf e = some .long) :
    webhook cfg p e =
      if e.closeResult = .err then (.jsonError, [Call.userState, Call.marketClose "BTC"])
      else noopOrOpen (actionOf p) (cpOf e) (csizeOf e) e.userState1.accountValue
        (effLeverage cfg p) (effRiskPct cfg p) e [Call.userState, Call.marketClose "BTC"] := by
  have h1 : ¬ (actionOf p = "BUY" ∧ cpOf e = some .short) := by
    rintro ⟨hb, -⟩; rw [hb] at h; exact absurd h.1 (by decide)
  simp only [webhook, h0, Bool.false_eq_true, if_false, if_neg h1, if_pos h,
    List.cons_append, List.nil_append]

lemma webhook_noClose (h0 : falsy (pyOr p.action p.signal) = false)
    (h1 : ¬ (actionOf p = "BUY" ∧ cpOf e = some .short))
    (h2 : ¬ (actionOf p = "SELL" ∧ cpOf e = some .long)) :
    webhook cfg p e =
      noopOrOpen (actionOf p) (cpOf e) (csizeOf e) e.userState1.accountValue
        (effLeverage cfg p) (effRiskPct cfg p) e [Call.userState] := by
  simp only [webhook, h0, Bool.false_eq_true, if_false, if_neg h1, if_neg h2]

end StepLemmas

lemma noopOrOpen_shape (A : String) (lv : ℤ) (rp cs av : ℚ) (cp : Option PosState)
    (e : Exchange) (t : List Call) :
    ((noopOrOpen A cp cs av lv rp e t).1 = .jsonError ∨
      (noopOrOpen A cp cs av lv rp e t).1.isSuccess = true)
    ∧ ∃ rest, (noopOrOpen A cp cs av lv rp e t).2 = t ++ rest ∧
        rest <+: openTail lv A e rp := by
  by_cases hb : A = "BUY" ∧ cp = some .long
  · rw [noopOrOpen_buyLong _ _ _ _ _ _ _ _ hb]
    exact ⟨Or.inr rfl, [], by simp, List.nil_prefix⟩
  · by_cases hs : A = "SELL" ∧ cp = some .short
    · rw [noopOrOpen_sellShort _ _ _ _ _ _ _ _ hs]
      exact ⟨Or.inr rfl, [], by simp, List.nil_prefix⟩
    · rw [noopOrOpen_other _ _ _ _ _ _ _ _ hb hs]
      by_cases hl : e.leverageResult = .err
      · rw [openPhase_levErr _ _ _ _ _ hl]
        exact ⟨Or.inl rfl, _, rfl,
          ⟨[Call.userState, Call.allMids, Call.meta,
            Call.marketOpen "BTC" (decide (A = "BUY")) (sizeComputed e rp lv),
            Call.userState], rfl⟩⟩
      · by_cases hp : btcPriceOf e ≤ 0
        · rw [openPhase_priceErr _ _ _ _ _ hl hp]
          exact ⟨Or.inl rfl, _, rfl,
            ⟨[Call.meta, Call.marketOpen "BTC" (decide (A = "BUY")) (sizeComputed e rp lv),
              Call.userState], rfl⟩⟩
        · by_cases hsz : sizeComputed e rp lv ≤ 0
          · rw [openPhase_sizeErr _ _ _ _ _ hl hp hsz]
            exact ⟨Or.inl rfl, _, rfl,
              ⟨[Call.marketOpen "BTC" (decide (A = "BUY")) (sizeComputed e rp lv),
                Call.userState], rfl⟩⟩
          · by_cases ho : e.openResult = .err
            · rw [openPhase_openErr _ _ _ _ _ hl hp hsz ho]
              exact ⟨Or.inl rfl, _, rfl, ⟨[Call.userState], rfl⟩⟩
            · rw [openPhase_ok _ _ _ _ _ hl hp hsz ho]
              exact ⟨Or.inr rfl, _, rfl, ⟨[], by simp [openTail]⟩⟩

lemma fullTrace_eq (wc : Bool) (lv : ℤ) (A : String) (e : Exchange) (rp : ℚ) :
    fullTrace wc lv (decide (A = "BUY")) (sizeComputed e rp lv) =
      Call.userState :: ((if wc then [Call.marketClose "BTC"] else []) ++ openTail lv A e rp) := by
  cases wc <;> simp [fullTrace, openTail]

/-- Every run of the handler yields one of three response shapes (the 400
rejection, the `{"status": "error"}` body, or a success body) and a trace
that is a prefix of the canonical full call sequence. -/
lemma webhook_shape (cfg : Config) (p : Payload) (e : Exchange) :
    ((webhook cfg p e).1 = .httpError 400 "No action specified in alert" ∨
      (webhook cfg p e).1 = .jsonError ∨ (webhook cfg p e).1.isSuccess = true)
    ∧ ∃ wc b s, (webhook cfg p e).2 <+: fullTrace wc (effLeverage cfg p) b s := by
  by_cases h0 : falsy (pyOr p.action p.signal) = true
  · rw [webhook_400 cfg p e h0]
    exact ⟨Or.inl rfl, false, true, 0, List.nil_prefix⟩
  · replace h0 : falsy (pyOr p.action p.signal) = false := by
      simpa using h0
    by_cases hcb : actionOf p = "BUY" ∧ cpOf e = some .short
    case pos =>
      rw [webhook_closeBuy cfg p e h0 hcb]
      by_cases hcr : e.closeResult = .err
      · rw [if_pos hcr]
        refine ⟨Or.inr (Or.inl rfl), true, true, 0, ?_⟩
        exact ⟨_, rfl⟩
      · rw [if_neg hcr]
        obtain ⟨hresp, rest, htr, u, hu⟩ := noopOrOpen_shape (actionOf p)
          (effLeverage cfg p) (effRiskPct cfg p) (csizeOf e) e.userState1.accountValue
          (cpOf e) e [Call.userState, Call.marketClose "BTC"]
        refine ⟨Or.inr hresp, true, decide (actionOf p = "BUY"),
          sizeComputed e (effRiskPct cfg p) (effLeverage cfg p), ?_⟩
        rw [fullTrace_eq true (effLeverage cfg p) (actionOf p) e (effRiskPct cfg p), htr]
        exact ⟨u, by rw [List.append_assoc, hu]; rfl⟩
    case neg =>
      by_cases hcs : actionOf p = "SELL" ∧ cpOf e = some .long
      case pos =>
        rw [webhook_closeSell cfg p e h0 hcs]
        by_cases hcr : e.closeResult = .err
        · rw [if_pos hcr]
          refine ⟨Or.inr (Or.inl rfl), true, true, 0, ?_⟩
          exact ⟨_, rfl⟩
        · rw [if_neg hcr]
          obtain ⟨hresp, rest, htr, u, hu⟩ := noopOrOpen_shape (actionOf p)
            (effLeverage cfg p) (effRiskPct cfg p) (csizeOf e) e.userState1.accountValue
            (cpOf e) e [Call.userState, Call.marketClose "BTC"]
          refine ⟨Or.inr hresp, true, decide (actionOf p = "BUY"),
            sizeComputed e (effRiskPct cfg p) (effLeverage cfg p), ?_⟩
          rw [fullTrace_eq true (effLeverage cfg p) (actionOf p) e (effRiskPct cfg p), htr]
          exact ⟨u, by rw [List.append_assoc, hu]; rfl⟩
      case neg =>
        rw [webhook_noClose cfg p e h0 hcb hcs]
        obtain ⟨hresp, rest, htr, u, hu⟩ := noopOrOpen_shape (actionOf p)
          (effLeverage cfg p) (effRiskPct cfg p) (csizeOf e) e.userState1.accountValue
          (cpOf e) e [Call.userState]
        refine ⟨Or.inr hresp, false, decide (actionOf p = "BUY"),
          sizeComputed e (effRiskPct cfg p) (effLeverage cfg p), ?_⟩
        rw [fullTrace_eq false (effLeverage cfg p) (actionOf p) e (effRiskPct cfg p), htr]
        exact ⟨u, by rw [List.append_assoc, hu]; rfl⟩

/-! Evaluation and bound lemmas for the rounding model. -/

lemma roundHalfEven_eq_of_lt (x : ℚ) (n : ℤ) (h1 : (n : ℚ) ≤ x) (h2 : x - n < 1/2) :
    roundHalfEven x = n := by
  have hf : ⌊x⌋ = n := by
    rw [Int.floor_eq_iff]
    exact ⟨h1, by linarith⟩
  unfold roundHalfEven
  simp only [hf]
  rw [if_pos h2]

lemma roundHalfEven_eq_of_gt (x : ℚ) (n : ℤ) (h2 : 1/2 < x - n) (h3 : x < n + 1) :
    roundHalfEven x = n + 1 := by
  have hf : ⌊x⌋ = n := by
    rw [Int.floor_eq_iff]
    refine ⟨by linarith, by linarith⟩
  unfold roundHalfEven
  simp only [hf]
  rw [if_neg (by linarith), if_pos h2]

lemma abs_roundHalfEven_sub_le (q : ℚ) : |(roundHalfEven q : ℚ) - q| ≤ 1/2 := by
  have h0 : (⌊q⌋ : ℚ) ≤ q := Int.floor_le q
  have h1 : q < ⌊q⌋ + 1 := Int.lt_floor_add_one q
  unfold roundHalfEven
  dsimp only
  split_ifs with ha hb hc <;>
    (rw [abs_le]; constructor <;> push_cast <;> linarith)

lemma pyRound_eq_of_lt (q : ℚ) (d : ℕ) (n : ℤ) (h1 : (n : ℚ) ≤ q * 10 ^ d)
    (h2 : q * 10 ^ d - n < 1/2) : pyRound q d = (n : ℚ) / 10 ^ d := by
  unfold pyRound
  rw [roundHalfEven_eq_of_lt _ n h1 h2]

lemma pyRound_eq_of_gt (q : ℚ) (d : ℕ) (n : ℤ) (h2 : 1/2 < q * 10 ^ d - n)
    (h3 : q * 10 ^ d < n + 1) : pyRound q d = ((n : ℚ) + 1) / 10 ^ d := by
  unfold pyRound
  rw [roundHalfEven_eq_of_gt _ n h2 h3]
  push_cast
  ring

lemma abs_pyRound_sub_le (q : ℚ) (d : ℕ) : |pyRound q d - q| ≤ 1 / (2 * 10 ^ d) := by
  have h := abs_roundHalfEven_sub_le (q * 10 ^ d)
  have hp : (0 : ℚ) < 10 ^ d := by positivity
  unfold pyRound
  have heq : (roundHalfEven (q * 10 ^ d) : ℚ) / 10 ^ d - q
      = ((roundHalfEven (q * 10 ^ d) : ℚ) - q * 10 ^ d) / 10 ^ d := by
    field_simp
    ring
  rw [heq, abs_div, abs_of_pos hp, div_le_div_iff₀ hp (by positivity)]
  calc |(roundHalfEven (q * 10 ^ d) : ℚ) - q * 10 ^ d| * (2 * 10 ^ d)
      ≤ (1/2) * (2 * 10 ^ d) := mul_le_mul_of_nonneg_right h (by positivity)
    _ = 1 * 10 ^ d := by ring

/-! Further path helpers. -/

lemma noopOrOpen_levErr (A : String) (lv : ℤ) (rp cs av : ℚ) (cp : Option PosState)
    (e : Exchange) (t : List Call) (hl : e.leverageResult = .err) :
    (noopOrOpen A cp cs av lv rp e t).2 = t ∨
      (noopOrOpen A cp cs av lv rp e t).2 = t ++ [Call.updateLeverage lv "BTC"] := by
  by_cases hb : A = "BUY" ∧ cp = some .long
  · rw [noopOrOpen_buyLong _ _ _ _ _ _ _ _ hb]; exact Or.inl rfl
  · by_cases hs : A = "SELL" ∧ cp = some .short
    · rw [noopOrOpen_sellShort _ _ _ _ _ _ _ _ hs]; exact Or.inl rfl
    · rw [noopOrOpen_other _ _ _ _ _ _ _ _ hb hs, openPhase_levErr _ _ _ _ _ hl]
      exact Or.inr rfl

/-- The full run in the reversal case: opposing position, close succeeds,
leverage succeeds, price positive, size positive, open succeeds. -/
lemma webhook_opposed_ok (cfg : Config) (p : Payload) (e : Exchange)
    (h0 : falsy (pyOr p.action p.signal) = false)
    (hopp : (actionOf p = "BUY" ∧ cpOf e = some .short) ∨
      (actionOf p = "SELL" ∧ cpOf e = some .long))
    (hc : e.closeResult ≠ .err) (hl : e.leverageResult ≠ .err)
    (hp : ¬ btcPriceOf e ≤ 0)
    (hsz : ¬ sizeComputed e (effRiskPct cfg p) (effLeverage cfg p) ≤ 0)
    (ho : e.openResult ≠ .err) :
    webhook cfg p e =
      (.success (if actionOf p = "BUY" then "BUY" else "SELL")
        (finalSizeOf e.userState3) (finalPriceOf e.userState3)
        e.userState3.accountValue,
       Call.userState :: Call.marketClose "BTC" ::
        openTail (effLeverage cfg p) (actionOf p) e (effRiskPct cfg p)) := by
  rcases hopp with h | h
  · rw [webhook_closeBuy cfg p e h0 h, if_neg hc,
      noopOrOpen_other _ _ _ _ _ _ _ _
        (by rintro ⟨-, h'⟩; rw [h.2] at h'; exact absurd h' (by decide))
        (by rintro ⟨h', -⟩; rw [h.1] at h'; exact absurd h' (by decide)),
      openPhase_ok _ _ _ _ _ hl hp hsz ho]
    rfl
  · rw [webhook_closeSell cfg p e h0 h, if_neg hc,
      noopOrOpen_other _ _ _ _ _ _ _ _
        (by rintro ⟨h', -⟩; rw [h.1] at h'; exact absurd h' (by decide))
        (by rintro ⟨-, h'⟩; rw [h.2] at h'; exact absurd h' (by decide)),
      openPhase_ok _ _ _ _ _ hl hp hsz ho]
    rfl

/-- The full run in the no-close case: position neither opposing nor equal
to the signal direction, leverage succeeds, price positive, size positive,
open succeeds. -/
lemma webhook_straight_ok (cfg : Config) (p : Payload) (e : Exchange)
    (h0 : falsy (pyOr p.action p.signal) = false)
    (hb : ¬ (actionOf p = "BUY" ∧ cpOf e = some .short))
    (hs : ¬ (actionOf p = "SELL" ∧ cpOf e = some .long))
    (hb' : ¬ (actionOf p = "BUY" ∧ cpOf e = some .long))
    (hs' : ¬ (actionOf p = "SELL" ∧ cpOf e = some .short))
    (hl : e.leverageResult ≠ .err)
    (hp : ¬ btcPriceOf e ≤ 0)
    (hsz : ¬ sizeComputed e (effRiskPct cfg p) (effLeverage cfg p) ≤ 0)
    (ho : e.openResult ≠ .err) :
    webhook cfg p e =
      (.success (if actionOf p = "BUY" then "BUY" else "SELL")
        (finalSizeOf e.userState3) (finalPriceOf e.userState3)
        e.userState3.accountValue,
       Call.userState ::
        openTail (effLeverage cfg p) (actionOf p) e (effRiskPct cfg p)) := by
  rw [webhook_noClose cfg p e h0 hb hs,
    noopOrOpen_other _ _ _ _ _ _ _ _ hb' hs',
    openPhase_ok _ _ _ _ _ hl hp hsz ho]
  rfl

/-- The open phase always issues the leverage call first; whatever happens
afterwards, the remaining calls form a prefix of the rest of the open-phase
sequence. -/
lemma openPhase_shape (A : String) (lv : ℤ) (rp : ℚ) (e : Exchange) (t : List Call) :
    ((openPhase A lv rp e t).1 = .jsonError ∨ (openPhase A lv rp e t).1.isSuccess = true)
    ∧ ∃ rest, (openPhase A lv rp e t).2 = t ++ Call.updateLeverage lv "BTC" :: rest ∧
        rest <+: [Call.userState, Call.allMids, Call.meta,
          Call.marketOpen "BTC" (decide (A = "BUY")) (sizeComputed e rp lv),
          Call.userState] := by
  by_cases hl : e.leverageResult = .err
  · rw [openPhase_levErr _ _ _ _ _ hl]
    exact ⟨Or.inl rfl, [], by simp, List.nil_prefix⟩
  · by_cases hp : btcPriceOf e ≤ 0
    · rw [openPhase_priceErr _ _ _ _ _ hl hp]
      exact ⟨Or.inl rfl, [Call.userState, Call.allMids], by simp,
        ⟨[Call.meta, Call.marketOpen "BTC" (decide (A = "BUY")) (sizeComputed e rp lv),
          Call.userState], rfl⟩⟩
    · by_cases hsz : sizeComputed e rp lv ≤ 0
      · rw [openPhase_sizeErr _ _ _ _ _ hl hp hsz]
        exact ⟨Or.inl rfl, [Call.userState, Call.allMids, Call.meta], by simp,
          ⟨[Call.marketOpen "BTC" (decide (A = "BUY")) (sizeComputed e rp lv),
            Call.userState], rfl⟩⟩
      · by_cases ho : e.openResult = .err
        · rw [openPhase_openErr _ _ _ _ _ hl hp hsz ho]
          exact ⟨Or.inl rfl, [Call.userState, Call.allMids, Call.meta,
            Call.marketOpen "BTC" (decide (A = "BUY")) (sizeComputed e rp lv)], by simp,
            ⟨[Call.userState], rfl⟩⟩
        · rw [openPhase_ok _ _ _ _ _ hl hp hsz ho]
          exact ⟨Or.inr rfl, [Call.userState, Call.allMids, Call.meta,
            Call.marketOpen "BTC" (decide (A = "BUY")) (sizeComputed e rp lv),
            Call.userState], by simp, List.prefix_rfl⟩

/-- A non-falsy action is never answered with the 400 rejection. -/
lemma webhook_not400 (cfg : Config) (p : Payload) (e : Exchange)
    (h0 : falsy (pyOr p.action p.signal) = false) :
    (webhook cfg p e).1 ≠ .httpError 400 "No action specified in alert" := by
  have resp : ∀ q : Response × List Call,
      (q.1 = .jsonError ∨ q.1.isSuccess = true) →
        q.1 ≠ .httpError 400 "No action specified in alert" := by
    rintro q (h | h) hq <;> rw [hq] at h <;> simp [Response.isSuccess] at h
  by_cases hcb : actionOf p = "BUY" ∧ cpOf e = some .short
  · rw [webhook_closeBuy cfg p e h0 hcb]
    by_cases hcr : e.closeResult = .err
    · rw [if_pos hcr]; simp
    · rw [if_neg hcr]
      exact resp _ (noopOrOpen_shape _ _ _ _ _ _ _ _).1
  · by_cases hcs : actionOf p = "SELL" ∧ cpOf e = some .long
    · rw [webhook_closeSell cfg p e h0 hcs]
      by_cases hcr : e.closeResult = .err
      · rw [if_pos hcr]; simp
      · rw [if_neg hcr]
        exact resp _ (noopOrOpen_shape _ _ _ _ _ _ _ _).1
    · rw [webhook_noClose cfg p e h0 hcb hcs]
      exact resp _ (noopOrOpen_shape _ _ _ _ _ _ _ _).1

/-! Classification and fixture evaluation lemmas. -/

lemma classify_flat {q : ℚ} (h : |q| < 1/1000000000) : classify q = .flat := by
  rw [classify, if_pos h]

lemma classify_long {q : ℚ} (h : 1/1000000000 ≤ q) : classify q = .long := by
  have h1 : ¬ (|q| < 1/1000000000) := not_lt.2 (le_trans h (le_abs_self q))
  have h2 : q > 0 := lt_of_lt_of_le (by norm_num) h
  rw [classify, if_neg h1, if_pos h2]

lemma classify_short {q : ℚ} (h : q ≤ -(1/1000000000)) : classify q = .short := by
  have h1 : ¬ (|q| < 1/1000000000) := by
    rw [abs_of_neg (by linarith)]
    linarith
  have h2 : ¬ (q > 0) := by linarith
  rw [classify, if_neg h1, if_neg h2]

lemma cpOf_okExchange : cpOf okExchange = some .flat := by
  rw [cpOf, findBTC]
  rw [show okExchange.userState1.assetPositions = [⟨"BTC", 0, none⟩] from rfl]
  rw [List.find?_cons_of_pos _ (by decide)]
  rw [Option.map_some']
  rw [classify_flat (by norm_num)]

lemma cpOf_shortExchange : cpOf shortExchange = some .short := by
  rw [cpOf, findBTC]
  rw [show shortExchange.userState1.assetPositions = [⟨"BTC", -1/100, none⟩] from rfl]
  rw [List.find?_cons_of_pos _ (by decide)]
  rw [Option.map_some']
  rw [classify_short (by norm_num)]

lemma cpOf_closeErrExchange : cpOf closeErrExchange = some .short := by
  rw [cpOf, findBTC]
  rw [show closeErrExchange.userState1.assetPositions = [⟨"BTC", -1/100, none⟩] from rfl]
  rw [List.find?_cons_of_pos _ (by decide)]
  rw [Option.map_some']
  rw [classify_short (by norm_num)]

lemma cpOf_noPriceExchange : cpOf noPriceExchange = some .flat := by
  rw [cpOf, findBTC]
  rw [show noPriceExchange.userState1.assetPositions = [⟨"BTC", 0, none⟩] from rfl]
  rw [List.find?_cons_of_pos _ (by decide)]
  rw [Option.map_some']
  rw [classify_flat (by norm_num)]

lemma cpOf_lowBalanceExchange : cpOf lowBalanceExchange = none := rfl

lemma sizeComputed_okExchange_2_5 : sizeComputed okExchange 2 5 = 1/50 := by
  rw [sizeComputed]
  norm_num [okExchange, flatUS, btcPriceOf, List.lookup, szDecOf, List.find?]
  rw [pyRound_eq_of_lt _ _ 20 (by norm_num) (by norm_num)]
  norm_num

lemma sizeComputed_okExchange_50_5 : sizeComputed okExchange 50 5 = 1/2 := by
  rw [sizeComputed]
  norm_num [okExchange, flatUS, btcPriceOf, List.lookup, szDecOf, List.find?]
  rw [pyRound_eq_of_lt _ _ 500 (by norm_num) (by norm_num)]
  norm_num

lemma sizeComputed_okExchange_2_0 : sizeComputed okExchange 2 0 = 0 := by
  rw [sizeComputed]
  norm_num [okExchange, flatUS, btcPriceOf, List.lookup, szDecOf, List.find?]
  rw [pyRound_eq_of_lt _ _ 0 (by norm_num) (by norm_num)]
  norm_num

lemma sizeComputed_shortExchange_2_5 : sizeComputed shortExchange 2 5 = 1/50 := by
  rw [sizeComputed]
  norm_num [shortExchange, flatUS, btcPriceOf, List.lookup, szDecOf, List.find?]
  rw [pyRound_eq_of_lt _ _ 20 (by norm_num) (by norm_num)]
  norm_num

lemma sizeComputed_lowBalanceExchange : sizeComputed lowBalanceExchange 100 1 = 1/2 := by
  rw [sizeComputed]
  norm_num [lowBalanceExchange, lowBalanceUS, btcPriceOf, List.lookup, szDecOf, List.find?]
  rw [pyRound_eq_of_lt _ _ 500 (by norm_num) (by norm_num)]
  norm_num

lemma sizeComputed_rawQuantityExchange : sizeComputed rawQuantityExchange 100 1 = 1/50 := by
  rw [sizeComputed]
  norm_num [rawQuantityExchange, rawQuantityUS, btcPriceOf, List.lookup, szDecOf, List.find?]
  rw [pyRound_eq_of_gt _ _ 19 (by norm_num) (by norm_num)]
  norm_num

lemma effRiskPct_pBuy : effRiskPct sampleConfig pBuy = 2 := by
  rw [effRiskPct, show pBuy.risk_pct = none from rfl]
  norm_num [sampleConfig]

lemma effRiskPct_pHold : effRiskPct sampleConfig pHold = 2 := by
  rw [effRiskPct, show pHold.risk_pct = none from rfl]
  norm_num [sampleConfig]

lemma effRiskPct_pBuyEth : effRiskPct sampleConfig pBuyEth = 2 := by
  rw [effRiskPct, show pBuyEth.risk_pct = none from rfl]
  norm_num [sampleConfig]

lemma effRiskPct_pLev0 : effRiskPct sampleConfig pLev0 = 2 := by
  rw [effRiskPct, show pLev0.risk_pct = none from rfl]
  norm_num [sampleConfig]

lemma effRiskPct_pRawQuantity : effRiskPct sampleConfig pRawQuantity = 100 := by
  rw [effRiskPct, show pRawQuantity.risk_pct = some (some 100) from rfl]
  norm_num

/-- Any payload with a non-falsy action, run against the flat `okExchange`
with effective risk 2 and leverage 5, goes straight through the open phase
and succeeds. -/
lemma webhook_okExchange_run (p : Payload) (h0 : falsy (pyOr p.action p.signal) = false)
    (hrp : effRiskPct sampleConfig p = 2) (hlv : effLeverage sampleConfig p = 5) :
    webhook sampleConfig p okExchange =
      (.success (if actionOf p = "BUY" then "BUY" else "SELL") (finalSizeOf doneUS)
        (finalPriceOf doneUS) doneUS.accountValue,
       Call.userState :: openTail 5 (actionOf p) okExchange 2) := by
  have h := webhook_straight_ok sampleConfig p okExchange h0
    (by rintro ⟨-, h⟩; rw [cpOf_okExchange] at h; exact absurd h (by decide))
    (by rintro ⟨-, h⟩; rw [cpOf_okExchange] at h; exact absurd h (by decide))
    (by rintro ⟨-, h⟩; rw [cpOf_okExchange] at h; exact absurd h (by decide))
    (by rintro ⟨-, h⟩; rw [cpOf_okExchange] at h; exact absurd h (by decide))
    (by decide)
    (by rw [show btcPriceOf okExchange = 50000 from rfl]; norm_num)
    (by rw [hrp, hlv, sizeComputed_okExchange_2_5]; norm_num)
    (by decide)
  rw [hrp, hlv] at h
  exact h

/-! Claim C1. -/

/-- Claim C1 counterexample: the action HOLD is not rejected with a
validation error — the request executes a trade: the response reports
success and the trace contains a leverage update and an open order. -/
theorem c1_hold_executes_a_trade :
    (webhook sampleConfig pHold okExchange).1.isSuccess = true ∧
    ((webhook sampleConfig pHold okExchange).2).countP Call.isLeverage = 1 ∧
    ((webhook sampleConfig pHold okExchange).2).countP Call.isOpen = 1 := by
  rw [webhook_okExchange_run pHold (by decide) effRiskPct_pHold rfl]
  refine ⟨rfl, ?_, ?_⟩ <;>
    simp [openTail, List.countP_cons, Call.isLeverage, Call.isOpen]

/-- Claim C1 (amended): a payload whose action normalizes to neither BUY
nor SELL is NOT rejected — only a missing or empty action yields the 400
validation error.  For such an action no close call is issued, the leverage
update is still issued exactly once, and any open order the flow submits
carries `is_buy = false` (the unknown action is treated as a sell). -/
theorem c1_unknown_action_not_rejected (cfg : Config) (p : Payload) (e : Exchange)
    (a : String) (hact : pyOr p.action p.signal = some a) (ha : a ≠ "")
    (hbuy : pyUpper a ≠ "BUY") (hsell : pyUpper a ≠ "SELL") :
    (webhook cfg p e).1 ≠ .httpError 400 "No action specified in alert" ∧
    ((webhook cfg p e).2).countP Call.isClose = 0 ∧
    ((webhook cfg p e).2).countP Call.isLeverage = 1 ∧
    ((webhook cfg p e).2).all
      (fun c => match c with | .marketOpen _ b _ => b = false | _ => true) = true := by
  have hA : actionOf p = pyUpper a := by rw [actionOf, hact, Option.getD_some]
  have h0 : falsy (pyOr p.action p.signal) = false := by
    rw [hact]
    simp [falsy, ha]
  have hbF : decide (actionOf p = "BUY") = false :=
    decide_eq_false (by rw [hA]; exact hbuy)
  rw [webhook_noClose cfg p e h0
    (by rintro ⟨h, -⟩; rw [hA] at h; exact hbuy h)
    (by rintro ⟨h, -⟩; rw [hA] at h; exact hsell h),
    noopOrOpen_other _ _ _ _ _ _ _ _
    (by rintro ⟨h, -⟩; rw [hA] at h; exact hbuy h)
    (by rintro ⟨h, -⟩; rw [hA] at h; exact hsell h)]
  obtain ⟨hresp, rest, htr, hpre⟩ := openPhase_shape (actionOf p) (effLeverage cfg p)
    (effRiskPct cfg p) e [Call.userState]
  have hsub := hpre.sublist
  refine ⟨?_, ?_, ?_, ?_⟩
  · rcases hresp with h | h
    · rw [h]
      simp
    · intro hq
      rw [hq] at h
      simp [Response.isSuccess] at h
  · rw [htr]
    have h1 : rest.countP Call.isClose = 0 := by
      have h2 := hsub.countP_le Call.isClose
      have h3 : ([Call.userState, Call.allMids, Call.meta,
          Call.marketOpen "BTC" (decide (actionOf p = "BUY"))
            (sizeComputed e (effRiskPct cfg p) (effLeverage cfg p)),
          Call.userState]).countP Call.isClose = 0 := by
        simp [List.countP_cons, Call.isClose]
      rw [h3] at h2
      omega
    simp [List.countP_append, List.countP_cons, Call.isClose, h1]
  · rw [htr]
    have h1 : rest.countP Call.isLeverage = 0 := by
      have h2 := hsub.countP_le Call.isLeverage
      have h3 : ([Call.userState, Call.allMids, Call.meta,
          Call.marketOpen "BTC" (decide (actionOf p = "BUY"))
            (sizeComputed e (effRiskPct cfg p) (effLeverage cfg p)),
          Call.userState]).countP Call.isLeverage = 0 := by
        simp [List.countP_cons, Call.isLeverage]
      rw [h3] at h2
      omega
    simp [List.countP_append, List.countP_cons, Call.isLeverage, h1]
  · rw [htr, List.all_eq_true]
    intro c hc
    simp only [List.cons_append, List.nil_append, List.mem_cons] at hc
    rcases hc with rfl | rfl | hc
    · rfl
    · rfl
    · have hm := hsub.subset hc
      simp only [List.mem_cons, List.not_mem_nil, or_false] at hm
      rcases hm with rfl | rfl | rfl | rfl | rfl <;> simp [hbF]

/-- Witness for C1 at a concrete input: the action HOLD with a benign
exchange. -/
theorem c1_unknown_action_not_rejected_witness :
    (webhook sampleConfig pHold okExchange).1 ≠
      .httpError 400 "No action specified in alert" ∧
    ((webhook sampleConfig pHold okExchange).2).countP Call.isClose = 0 ∧
    ((webhook sampleConfig pHold okExchange).2).countP Call.isLeverage = 1 ∧
    ((webhook sampleConfig pHold okExchange).2).all
      (fun c => match c with | .marketOpen _ b _ => b = false | _ => true) = true :=
  c1_unknown_action_not_rejected sampleConfig pHold okExchange "HOLD" rfl
    (by decide) (by decide) (by decide)

/-! Claim C2. -/

/-- Claim C2 counterexample: a payload whose coin field is "ETH" still
closes/leverages/opens BTC: the trace contains a BTC open order and no call
whose instrument is "ETH". -/
theorem c2_eth_coin_still_trades_btc :
    pBuyEth.coin = some "ETH" ∧
    Call.marketOpen "BTC" true (1/50) ∈ (webhook sampleConfig pBuyEth okExchange).2 ∧
    ((webhook sampleConfig pBuyEth okExchange).2).countP
      (fun c => Call.instrument c = some "ETH") = 0 := by
  refine ⟨rfl, ?_, ?_⟩ <;>
    rw [webhook_okExchange_run pBuyEth (by decide) effRiskPct_pBuyEth rfl,
      show actionOf pBuyEth = "BUY" from by decide]
  · simp [openTail, sizeComputed_okExchange_2_5]
  · simp [openTail, List.countP_cons, Call.instrument]

/-- Claim C2 (amended): the traded instrument is fixed: every collaborator
call that carries an instrument carries "BTC", regardless of the payload
(the `coin` field is never read). -/
theorem c2_all_calls_target_btc :
    ∀ cfg p e, ((webhook cfg p e).2).all
      (fun c => (Call.instrument c).getD "BTC" = "BTC") = true := by
  intro cfg p e
  obtain ⟨-, wc, b, s, hpre⟩ := webhook_shape cfg p e
  rw [List.all_eq_true]
  intro c hc
  have hm := hpre.sublist.subset hc
  have hall : ∀ c', c' ∈ fullTrace wc (effLeverage cfg p) b s →
      (Call.instrument c').getD "BTC" = "BTC" := by
    intro c' hc'
    cases wc
    · rw [show fullTrace false (effLeverage cfg p) b s =
        [Call.userState, Call.updateLeverage (effLeverage cfg p) "BTC",
          Call.userState, Call.allMids, Call.meta, Call.marketOpen "BTC" b s,
          Call.userState] from rfl] at hc'
      fin_cases hc' <;> rfl
    · rw [show fullTrace true (effLeverage cfg p) b s =
        [Call.userState, Call.marketClose "BTC",
          Call.updateLeverage (effLeverage cfg p) "BTC", Call.userState,
          Call.allMids, Call.meta, Call.marketOpen "BTC" b s,
          Call.userState] from rfl] at hc'
      fin_cases hc' <;> rfl
  simpa using hall c hm

/-! Claim C6. -/

/-- Claim C6 counterexample: when the price fetch fails (no BTC mid is
served), the request immediately returns the error body after a single
`all_mids` attempt — there is no retry that would let a later success
complete the request. -/
theorem c6_failed_price_fetch_not_retried :
    (webhook sampleConfig pBuy noPriceExchange).1 = .jsonError ∧
    ((webhook sampleConfig pBuy noPriceExchange).2).countP Call.isAllMids = 1 := by
  have hrun : webhook sampleConfig pBuy noPriceExchange =
      (.jsonError, [Call.userState, Call.updateLeverage 5 "BTC", Call.userState,
        Call.allMids]) := by
    rw [webhook_noClose _ _ _ (by decide)
        (by rintro ⟨-, h⟩; rw [cpOf_noPriceExchange] at h; exact absurd h (by decide))
        (by rintro ⟨-, h⟩; rw [cpOf_noPriceExchange] at h; exact absurd h (by decide)),
      noopOrOpen_other _ _ _ _ _ _ _ _
        (by rintro ⟨-, h⟩; rw [cpOf_noPriceExchange] at h; exact absurd h (by decide))
        (by rintro ⟨-, h⟩; rw [cpOf_noPriceExchange] at h; exact absurd h (by decide)),
      openPhase_priceErr _ _ _ _ _ (by decide)
        (le_of_eq (show btcPriceOf noPriceExchange = 0 from rfl))]
    rfl
  rw [hrun]
  exact ⟨rfl, by simp [List.countP_cons, Call.isAllMids]⟩

/-- Claim C6 (amended): there is no retry logic: in any run, each
exchange-collaborator call site is attempted at most once (close, leverage
update, price fetch, meta fetch, open). -/
theorem c6_each_call_attempted_at_most_once :
    ∀ cfg p e,
      ((webhook cfg p e).2).countP Call.isClose ≤ 1 ∧
      ((webhook cfg p e).2).countP Call.isLeverage ≤ 1 ∧
      ((webhook cfg p e).2).countP Call.isAllMids ≤ 1 ∧
      ((webhook cfg p e).2).countP Call.isMeta ≤ 1 ∧
      ((webhook cfg p e).2).countP Call.isOpen ≤ 1 := by
  intro cfg p e
  obtain ⟨-, wc, b, s, hpre⟩ := webhook_shape cfg p e
  have hsub := hpre.sublist
  refine ⟨le_trans (hsub.countP_le _) ?_, le_trans (hsub.countP_le _) ?_,
    le_trans (hsub.countP_le _) ?_, le_trans (hsub.countP_le _) ?_,
    le_trans (hsub.countP_le _) ?_⟩ <;>
  cases wc <;>
    simp [fullTrace, List.countP_cons, Call.isClose, Call.isLeverage,
      Call.isAllMids, Call.isMeta, Call.isOpen]

/-! Claim C9. -/

/-- Claim C9 counterexample: a failing close (an exchange failure) is
answered with the `{"status": "error"}` JSON body at HTTP status 200 and
with no `detail` field — not with a 4xx/5xx status. -/
theorem c9_close_failure_returns_http_200 :
    (webhook sampleConfig pBuy closeErrExchange).1 = .jsonError ∧
    (webhook sampleConfig pBuy closeErrExchange).1.httpStatus = 200 ∧
    (webhook sampleConfig pBuy closeErrExchange).1.hasDetail = false := by
  have hrun : webhook sampleConfig pBuy closeErrExchange =
      (.jsonError, [Call.userState, Call.marketClose "BTC"]) := by
    rw [webhook_closeBuy sampleConfig pBuy closeErrExchange (by decide)
      ⟨by decide, cpOf_closeErrExchange⟩,
      if_pos (show closeErrExchange.closeResult = ApiResp.err from rfl)]
  rw [hrun]
  exact ⟨rfl, rfl, rfl⟩

/-- Claim C9 (amended): the only non-200 HTTP status the handler produces
is the 400 for a missing/empty action (the one response carrying a
`detail`); every other outcome — success or failure — is sent with HTTP
status 200 and no `detail` field.  429 and 500 are never produced. -/
theorem c9_failures_return_200_without_detail :
    ∀ cfg p e,
      ((webhook cfg p e).1 = .httpError 400 "No action specified in alert" ∧
        (webhook cfg p e).1.hasDetail = true) ∨
      ((webhook cfg p e).1.httpStatus = 200 ∧ (webhook cfg p e).1.hasDetail = false) := by
  intro cfg p e
  have hgen : ∀ r : Response, r.isSuccess = true →
      r.httpStatus = 200 ∧ r.hasDetail = false := by
    intro r hr
    cases r with
    | httpError c d => exact absurd hr (by simp [Response.isSuccess])
    | jsonError => exact ⟨rfl, rfl⟩
    | success a sz pr av => exact ⟨rfl, rfl⟩
  rcases (webhook_shape cfg p e).1 with h | h | h
  · exact Or.inl ⟨h, by rw [h]; rfl⟩
  · exact Or.inr ⟨by rw [h]; rfl, by rw [h]; rfl⟩
  · exact Or.inr (hgen _ h)

/-! Claim C3. -/

/-- Claim C3 counterexample: a requested `risk_pct` of 50 with configured
`MAX_RISK_PCT = 2` is used as 50, not capped to the configured maximum —
the handler clamps to the fixed range [0, 100], and the configured value is
only the default. -/
theorem c3_requested_risk_above_max_not_capped :
    effRiskPct sampleConfig pRisk50 = 50 ∧ sampleConfig.default_risk_pct = 2 ∧
      (50 : ℚ) ≠ 2 := by
  refine ⟨?_, rfl, by norm_num⟩
  rw [effRiskPct, show pRisk50.risk_pct = some (some 50) from rfl]
  norm_num

/-- Claim C3 (amended): the effective risk percentage is the requested value
clamped into the fixed range [0, 100]; any requested value already in
[0, 100] is used as-is, even when it exceeds the configured `MAX_RISK_PCT`
(which acts only as the default when `risk_pct` is absent or unparseable). -/
theorem c3_risk_pct_clamped_to_0_100 :
    (∀ cfg p, 0 ≤ effRiskPct cfg p ∧ effRiskPct cfg p ≤ 100) ∧
    (∀ cfg p x, p.risk_pct = some (some x) → 0 ≤ x → x ≤ 100 →
      effRiskPct cfg p = x) := by
  constructor
  · intro cfg p
    rw [effRiskPct]
    split_ifs with h1 h2 h3 <;> constructor <;> linarith
  · intro cfg p x hx h0 h100
    rw [effRiskPct, hx]
    rw [if_neg (show ¬ x > 100 by linarith), if_neg (show ¬ x < 0 by linarith)]

/-- Witness for C3 at a concrete input: risk 50 requested, used unchanged. -/
theorem c3_risk_pct_clamped_to_0_100_witness :
    pRisk50.risk_pct = some (some 50) ∧ effRiskPct sampleConfig pRisk50 = 50 :=
  ⟨rfl, c3_risk_pct_clamped_to_0_100.2 sampleConfig pRisk50 50 rfl (by norm_num)
    (by norm_num)⟩

/-! Claim C4. -/

/-- Claim C4 counterexample: a raw quantity of exactly 0.0199 (balance 199,
risk 100 %, leverage 1, price 10000) with `szDecimals = 3` is rounded to
0.020, not floored to 0.019 — Python `round` rounds to nearest. -/
theorem c4_raw_quantity_rounds_up :
    rawQuantityExchange.userState2.accountValue * (100/100) * ((1 : ℤ) : ℚ) /
        btcPriceOf rawQuantityExchange = 199/10000
    ∧ sizeComputed rawQuantityExchange 100 1 = 2/100 ∧ (2/100 : ℚ) ≠ 19/1000 := by
  refine ⟨by norm_num [rawQuantityExchange, rawQuantityUS, btcPriceOf, List.lookup],
    ?_, by norm_num⟩
  rw [sizeComputed_rawQuantityExchange]
  norm_num

/-- Claim C4 (amended): the computed order size is Python `round` of the raw
quantity at `size_decimals` digits — round half to even, within half of the
last decimal place of the raw quantity, so rounding may increase the size;
in particular 0.0199 at 3 decimals yields 0.020. -/
theorem c4_rounding_is_half_even_not_floor :
    (∀ (q : ℚ) (d : ℕ), |pyRound q d - q| ≤ 1 / (2 * 10 ^ d)) ∧
      pyRound (199/10000) 3 = 2/100 := by
  refine ⟨abs_pyRound_sub_le, ?_⟩
  rw [pyRound_eq_of_gt _ _ 19 (by norm_num) (by norm_num)]
  norm_num

/-! Claim C8. -/

/-- Claim C8 counterexample: a payload leverage of 0 parses and is used
as-is — the effective leverage is 0, not the configured default 5. -/
theorem c8_zero_leverage_used_not_default :
    effLeverage sampleConfig pLev0 = 0 ∧ sampleConfig.default_leverage_val = 5 ∧
      (0 : ℤ) ≠ 5 :=
  ⟨rfl, rfl, by decide⟩

/-- Claim C8 (amended): the configured default leverage is used only when
the `leverage` field is missing or fails to parse; any value that parses to
an integer — including zero and negative values — is used unchanged. -/
theorem c8_leverage_default_only_on_missing_or_parse_failure :
    (∀ cfg p, (p.leverage = none ∨ p.leverage = some none) →
      effLeverage cfg p = cfg.default_leverage_val) ∧
    (∀ cfg p (k : ℤ), p.leverage = some (some k) → effLeverage cfg p = k) := by
  constructor
  · rintro cfg p (h | h) <;> rw [effLeverage, h]
  · intro cfg p k h
    rw [effLeverage, h]

/-- Witness for C8 at a concrete input: leverage 0 present and parsed, used
unchanged. -/
theorem c8_leverage_default_only_on_missing_or_parse_failure_witness :
    pLev0.leverage = some (some 0) ∧ effLeverage sampleConfig pLev0 = 0 :=
  ⟨rfl, c8_leverage_default_only_on_missing_or_parse_failure.2 sampleConfig pLev0 0 rfl⟩

/-! Claim C5. -/

/-- Claim C5: when the current position opposes the signal direction, a
fully successful run issues exactly one close and exactly one open, with
the close before the leverage update and the leverage update before the
open; and whenever the leverage update fails, no open order is ever
placed. -/
theorem c5_close_then_leverage_then_open :
    (∀ cfg p e,
      falsy (pyOr p.action p.signal) = false →
      ((actionOf p = "BUY" ∧ cpOf e = some .short) ∨
        (actionOf p = "SELL" ∧ cpOf e = some .long)) →
      e.closeResult ≠ .err → e.leverageResult ≠ .err → ¬ btcPriceOf e ≤ 0 →
      ¬ sizeComputed e (effRiskPct cfg p) (effLeverage cfg p) ≤ 0 →
      e.openResult ≠ .err →
      (((webhook cfg p e).2).countP Call.isClose = 1 ∧
       ((webhook cfg p e).2).countP Call.isOpen = 1 ∧
       ((webhook cfg p e).2).findIdx Call.isClose <
         ((webhook cfg p e).2).findIdx Call.isLeverage ∧
       ((webhook cfg p e).2).findIdx Call.isLeverage <
         ((webhook cfg p e).2).findIdx Call.isOpen)) ∧
    (∀ cfg p e, e.leverageResult = .err →
      ((webhook cfg p e).2).countP Call.isOpen = 0) := by
  constructor
  · intro cfg p e h0 hopp hc hl hp hsz ho
    rw [webhook_opposed_ok cfg p e h0 hopp hc hl hp hsz ho]
    refine ⟨?_, ?_, ?_, ?_⟩ <;>
      simp [openTail, List.countP_cons, List.findIdx_cons, Call.isClose,
        Call.isOpen, Call.isLeverage]
  · intro cfg p e hl
    by_cases h0 : falsy (pyOr p.action p.signal) = true
    · rw [webhook_400 cfg p e h0]
      simp
    · replace h0 : falsy (pyOr p.action p.signal) = false := by simpa using h0
      by_cases hcb : actionOf p = "BUY" ∧ cpOf e = some .short
      · rw [webhook_closeBuy cfg p e h0 hcb]
        by_cases hcr : e.closeResult = .err
        · rw [if_pos hcr]
          simp [List.countP_cons, Call.isOpen]
        · rw [if_neg hcr]
          rcases noopOrOpen_levErr _ _ _ _ _ _ _ _ hl with h | h <;> rw [h] <;>
            simp [List.countP_cons, Call.isOpen]
      · by_cases hcs : actionOf p = "SELL" ∧ cpOf e = some .long
        · rw [webhook_closeSell cfg p e h0 hcs]
          by_cases hcr : e.closeResult = .err
          · rw [if_pos hcr]
            simp [List.countP_cons, Call.isOpen]
          · rw [if_neg hcr]
            rcases noopOrOpen_levErr _ _ _ _ _ _ _ _ hl with h | h <;> rw [h] <;>
              simp [List.countP_cons, Call.isOpen]
        · rw [webhook_noClose cfg p e h0 hcb hcs]
          rcases noopOrOpen_levErr _ _ _ _ _ _ _ _ hl with h | h <;> rw [h] <;>
            simp [List.countP_cons, Call.isOpen]

/-- Witness for C5 at a concrete input: a BUY against a short position with
a benign exchange. -/
theorem c5_close_then_leverage_then_open_witness :
    ((webhook sampleConfig pBuy shortExchange).2).countP Call.isClose = 1 ∧
    ((webhook sampleConfig pBuy shortExchange).2).countP Call.isOpen = 1 ∧
    ((webhook sampleConfig pBuy shortExchange).2).findIdx Call.isClose <
      ((webhook sampleConfig pBuy shortExchange).2).findIdx Call.isLeverage ∧
    ((webhook sampleConfig pBuy shortExchange).2).findIdx Call.isLeverage <
      ((webhook sampleConfig pBuy shortExchange).2).findIdx Call.isOpen :=
  c5_close_then_leverage_then_open.1 sampleConfig pBuy shortExchange (by decide)
    (Or.inl ⟨by decide, cpOf_shortExchange⟩) (by decide) (by decide)
    (by rw [show btcPriceOf shortExchange = 50000 from rfl]; norm_num)
    (by rw [effRiskPct_pBuy, show effLeverage sampleConfig pBuy = 5 from rfl,
      sizeComputed_shortExchange_2_5]; norm_num)
    (by decide)

/-! Claim C7. -/

/-- Claim C7 (amended): no minimum-notional floor exists: on a run that
reaches the open order, the submitted size is Python round of
(account_value · risk_pct/100 · leverage) / price at the instrument's
decimals — the computed notional is used directly, however small. -/
theorem c7_no_min_notional_floor (cfg : Config) (p : Payload) (e : Exchange)
    (h0 : falsy (pyOr p.action p.signal) = false)
    (hb : ¬ (actionOf p = "BUY" ∧ cpOf e = some .short))
    (hs : ¬ (actionOf p = "SELL" ∧ cpOf e = some .long))
    (hb' : ¬ (actionOf p = "BUY" ∧ cpOf e = some .long))
    (hs' : ¬ (actionOf p = "SELL" ∧ cpOf e = some .short))
    (hl : e.leverageResult ≠ .err) (hp : ¬ btcPriceOf e ≤ 0)
    (hsz : ¬ sizeComputed e (effRiskPct cfg p) (effLeverage cfg p) ≤ 0)
    (ho : e.openResult ≠ .err) :
    Call.marketOpen "BTC" (decide (actionOf p = "BUY"))
      (match e.metaUniverse with
        | some univ => pyRound (e.userState2.accountValue * (effRiskPct cfg p / 100) *
            ((effLeverage cfg p : ℤ) : ℚ) / btcPriceOf e) (szDecOf univ)
        | none => pyRound (e.userState2.accountValue * (effRiskPct cfg p / 100) *
            ((effLeverage cfg p : ℤ) : ℚ) / btcPriceOf e) 3)
      ∈ (webhook cfg p e).2 := by
  have hdef : (match e.metaUniverse with
      | some univ => pyRound (e.userState2.accountValue * (effRiskPct cfg p / 100) *
          ((effLeverage cfg p : ℤ) : ℚ) / btcPriceOf e) (szDecOf univ)
      | none => pyRound (e.userState2.accountValue * (effRiskPct cfg p / 100) *
          ((effLeverage cfg p : ℤ) : ℚ) / btcPriceOf e) 3)
      = sizeComputed e (effRiskPct cfg p) (effLeverage cfg p) := rfl
  rw [hdef, webhook_straight_ok cfg p e h0 hb hs hb' hs' hl hp hsz ho]
  simp [openTail]

/-- Witness for C7 at a concrete input: balance 5, risk 100 %, leverage 1,
price 10 — computed notional 5 (below any would-be floor of 10) — the open
order sizes 5/10 = 0.5, not 10/10 = 1. -/
theorem c7_no_min_notional_floor_witness :
    lowBalanceExchange.userState2.accountValue *
      (effRiskPct sampleConfig pRawQuantity / 100) *
      ((effLeverage sampleConfig pRawQuantity : ℤ) : ℚ) = 5 ∧
    Call.marketOpen "BTC" true (1/2) ∈
      (webhook sampleConfig pRawQuantity lowBalanceExchange).2 := by
  have hsize : sizeComputed lowBalanceExchange (effRiskPct sampleConfig pRawQuantity)
      (effLeverage sampleConfig pRawQuantity) = 1/2 := by
    rw [effRiskPct_pRawQuantity, show effLeverage sampleConfig pRawQuantity = 1 from rfl,
      sizeComputed_lowBalanceExchange]
  constructor
  · rw [effRiskPct_pRawQuantity, show effLeverage sampleConfig pRawQuantity = 1 from rfl]
    norm_num [lowBalanceExchange, lowBalanceUS]
  · have h := c7_no_min_notional_floor sampleConfig pRawQuantity lowBalanceExchange
      (by decide)
      (by rintro ⟨-, h⟩; rw [cpOf_lowBalanceExchange] at h; exact absurd h (by decide))
      (by rintro ⟨-, h⟩; rw [cpOf_lowBalanceExchange] at h; exact absurd h (by decide))
      (by rintro ⟨-, h⟩; rw [cpOf_lowBalanceExchange] at h; exact absurd h (by decide))
      (by rintro ⟨-, h⟩; rw [cpOf_lowBalanceExchange] at h; exact absurd h (by decide))
      (by decide)
      (by rw [show btcPriceOf lowBalanceExchange = 10 from rfl]; norm_num)
      (by rw [effRiskPct_pRawQuantity,
        show effLeverage sampleConfig pRawQuantity = 1 from rfl,
        sizeComputed_lowBalanceExchange]; norm_num)
      (by decide)
    rw [show (decide (actionOf pRawQuantity = "BUY")) = true from by decide] at h
    have h' : Call.marketOpen "BTC" true (sizeComputed lowBalanceExchange
        (effRiskPct sampleConfig pRawQuantity)
        (effLeverage sampleConfig pRawQuantity)) ∈
        (webhook sampleConfig pRawQuantity lowBalanceExchange).2 := h
    rwa [hsize] at h'

/-- Claim C7 counterexample: with computed notional 5 and a claimed floor of
10, the open order would have size 1 (= 10/price); the handler instead opens
size 0.5 (= 5/price) and never submits size 1. -/
theorem c7_notional_5_sized_as_5 :
    Call.marketOpen "BTC" true (1/2) ∈
      (webhook sampleConfig pRawQuantity lowBalanceExchange).2 ∧
    ((webhook sampleConfig pRawQuantity lowBalanceExchange).2).countP
      (fun c => c = Call.marketOpen "BTC" true 1) = 0 := by
  have htr : (webhook sampleConfig pRawQuantity lowBalanceExchange).2 =
      Call.userState :: openTail 1 "BUY" lowBalanceExchange 100 := by
    rw [webhook_straight_ok sampleConfig pRawQuantity lowBalanceExchange
      (by decide)
      (by rintro ⟨-, h⟩; rw [cpOf_lowBalanceExchange] at h; exact absurd h (by decide))
      (by rintro ⟨-, h⟩; rw [cpOf_lowBalanceExchange] at h; exact absurd h (by decide))
      (by rintro ⟨-, h⟩; rw [cpOf_lowBalanceExchange] at h; exact absurd h (by decide))
      (by rintro ⟨-, h⟩; rw [cpOf_lowBalanceExchange] at h; exact absurd h (by decide))
      (by decide)
      (by rw [show btcPriceOf lowBalanceExchange = 10 from rfl]; norm_num)
      (by rw [effRiskPct_pRawQuantity,
        show effLeverage sampleConfig pRawQuantity = 1 from rfl,
        sizeComputed_lowBalanceExchange]; norm_num)
      (by decide)]
    simp only [effRiskPct_pRawQuantity,
      show effLeverage sampleConfig pRawQuantity = 1 from rfl,
      show actionOf pRawQuantity = "BUY" from by decide]
  rw [htr]
  constructor
  · simp [openTail, sizeComputed_lowBalanceExchange]
  · norm_num [openTail, sizeComputed_lowBalanceExchange, List.countP_cons]
    decide

/-! Claim C10. -/

/-- Claim C10: when the `action` field is absent (or empty, hence falsy),
a non-empty `signal` field is used as the action: the run is identical to
the same payload with `action` set to that signal value; and the request is
rejected with the 400 "No action specified in alert" exactly when the
`action`-or-`signal` fallback is falsy (both absent or empty). -/
theorem c10_signal_alias :
    (∀ cfg p e s, (p.action = none ∨ p.action = some "") → p.signal = some s →
      s ≠ "" → webhook cfg p e = webhook cfg { p with action := some s } e) ∧
    (∀ cfg p e, ((webhook cfg p e).1 = .httpError 400 "No action specified in alert") ↔
      falsy (pyOr p.action p.signal) = true) := by
  constructor
  · intro cfg p e s hact hsig hs
    have h1 : pyOr p.action p.signal = some s := by
      rcases hact with h | h <;> simp [pyOr, h, hsig]
    have h2 : pyOr (some s) p.signal = some s := by
      simp [pyOr, hs]
    simp only [webhook, actionOf, effLeverage, effRiskPct, h1, h2]
  · intro cfg p e
    constructor
    · intro h
      by_cases hf : falsy (pyOr p.action p.signal) = true
      · exact hf
      · exact absurd h (webhook_not400 cfg p e (by simpa using hf))
    · intro h
      rw [webhook_400 cfg p e h]

/-- Witness for C10 at a concrete input: a payload with only
`signal = "SELL"` runs exactly like one with `action = "SELL"`. -/
theorem c10_signal_alias_witness :
    webhook sampleConfig pSignalOnly okExchange =
      webhook sampleConfig pSignalAsAction okExchange :=
  c10_signal_alias.1 sampleConfig pSignalOnly okExchange "SELL" (Or.inl rfl) rfl
    (by decide)

end HLBot
